import Mathlib

/-!
Verification development for the collaborative code editor backend.

The Python sources under `backend/` are shallowly embedded as Lean
definitions: the document model (`crdt.py`), the room registry
(`room_manager.py`) and the connection hub (`websocket_manager.py`).
Python strings are modelled as `List Char`, Python integers as `Int`,
Python dictionaries as association lists with lookup/erase/set helpers,
and `time.time()` values as an explicit `now : Int` parameter.
-/

/-- Python `str` payloads and document text are modelled as lists of
characters. -/
abbrev Str := List Char

/-- Lookup `d.get(k)` on a Python dict modelled as an association list. -/
def alookup {α β : Type} [DecidableEq α] : List (α × β) → α → Option β
  | [], _ => none
  | (k, v) :: rest, key => if k = key then some v else alookup rest key

/-- Removal effect of `d.pop(k, None)`: drop every binding of the key. -/
def aerase {α β : Type} [DecidableEq α] : List (α × β) → α → List (α × β)
  | [], _ => []
  | (k, v) :: rest, key =>
      if k = key then aerase rest key else (k, v) :: aerase rest key

/-- Assignment `d[k] = v` on a Python dict: bind the key, dropping older
bindings. -/
def aset {α β : Type} [DecidableEq α] (l : List (α × β)) (key : α) (v : β) :
    List (α × β) :=
  (key, v) :: aerase l key

/-- Embedding of `crdt.py` `Operation`: one edit; `op_type` is `'insert'`
or `'delete'` for well-formed operations but is an arbitrary string. -/
structure Operation where
  op_type : String
  position : Int
  content : Str
  client_id : String
  timestamp : Int
  version : Nat
deriving Repr, DecidableEq

/-- Embedding of the `crdt.py` `CRDT` state: text, log, version counter
and the `client_versions` defaultdict (absent keys read as 0). -/
structure CRDT where
  document_id : String
  content : Str
  operations : List Operation
  version : Nat
  client_versions : List (String × Nat)
deriving Repr, DecidableEq

/-- A fresh `CRDT(document_id)`. -/
def CRDT.init (document_id : String) : CRDT :=
  ⟨document_id, [], [], 0, []⟩

/-- Lookup `self.client_versions.get(client_id, 0)` (a defaultdict of
int, so absent clients read as 0). -/
def cvGet (cv : List (String × Nat)) (client_id : String) : Nat :=
  (alookup cv client_id).getD 0

/-- The position-adjustment loop of `CRDT._transform_operation`:
fold the concurrent operations, in order, over the position. -/
def transformPos (pos : Int) (ops : List Operation) : Int :=
  ops.foldl
    (fun p cop =>
      if cop.op_type = "insert" then
        if cop.position ≤ p then p + (cop.content.length : Int) else p
      else if cop.op_type = "delete" then
        if cop.position < p then
          p - min (cop.content.length : Int) (p - cop.position)
        else p
      else p)
    pos

/-- Embedding of `CRDT._transform_operation`: collect the log entries newer than the
submitter's last-known version, shift the position across them, clamp to
`≥ 0`, and build a fresh `Operation` (its `version` field takes the
dataclass default 0). -/
def CRDT.transform_operation (c : CRDT) (op : Operation) : Operation :=
  let client_version := cvGet c.client_versions op.client_id
  let concurrent_ops := c.operations.filter (fun o => client_version < o.version)
  { op_type := op.op_type
    position := max 0 (transformPos op.position concurrent_ops)
    content := op.content
    client_id := op.client_id
    timestamp := op.timestamp
    version := 0 }

/-- The text-splicing part of `CRDT.apply_operation`: the already
transformed operation (whose position is `≥ 0`) is applied to the
content; an unknown `op_type` leaves the content unchanged. -/
def applyText (content : Str) (t : Operation) : Str :=
  if t.op_type = "insert" then
    let pos := (min t.position (content.length : Int)).toNat
    content.take pos ++ t.content ++ content.drop pos
  else if t.op_type = "delete" then
    let start := (min t.position (content.length : Int)).toNat
    let length := t.content.length
    let e := min (start + length) content.length
    content.take start ++ content.drop e
  else content

/-- Embedding of `CRDT.apply_operation`: transform, splice the text, bump the
version, stamp the transformed operation, append it to the log and
record the submitter's version.  The Python body is wrapped in
`try/except` returning `False`; no statement in it can raise on
well-typed data, so the embedding always returns `true`. -/
def CRDT.apply_operation (c : CRDT) (op : Operation) : Bool × CRDT :=
  let t := c.transform_operation op
  let content' := applyText c.content t
  let v' := c.version + 1
  let t' := { t with version := v' }
  (true,
   { c with
      content := content'
      version := v'
      operations := c.operations ++ [t']
      client_versions := aset c.client_versions op.client_id v' })

/-- Embedding of `CRDT.get_operations_since`. -/
def CRDT.get_operations_since (c : CRDT) (version : Nat) : List Operation :=
  c.operations.filter (fun o => version < o.version)

/-- Embedding of `CRDT.set_content`: overwrite the text and bump the version; the
log is left untouched. -/
def CRDT.set_content (c : CRDT) (content : Str) : CRDT :=
  { c with content := content, version := c.version + 1 }

/-- Conversion from a Lean string literal to the character-list model. -/
def sChars (s : String) : Str := s.toList

/-- Embedding of `room_manager.py` `User`: only the fields the room
lifecycle reads (`user_id`, `last_active`); cursor fields are omitted as
no claim mentions them. -/
structure RUser where
  user_id : String
  last_active : Int
deriving Repr, DecidableEq

/-- Embedding of `room_manager.py` `Room`: id, creation time and the
`users` dict. -/
structure Room where
  room_id : String
  created_at : Int
  users : List (String × RUser)
deriving Repr, DecidableEq

/-- Embedding of `Room.get_active_users`: the users whose `last_active`
is within the last 300 seconds of `now` (`time.time()` at the call). -/
def Room.get_active_users (r : Room) (now : Int) : List RUser :=
  (r.users.map Prod.snd).filter (fun u => now - u.last_active < 300)

/-- Embedding of `room_manager.py` `RoomManager`: the `rooms` dict. -/
structure RoomManager where
  rooms : List (String × Room)
deriving Repr, DecidableEq

/-- Embedding of `RoomManager.delete_room`: remove the room whenever it
exists and report whether it did; the body consults nothing else. -/
def RoomManager.delete_room (m : RoomManager) (room_id : String) :
    Bool × RoomManager :=
  if (alookup m.rooms room_id).isSome then (true, ⟨aerase m.rooms room_id⟩)
  else (false, m)

/-- The selection predicate of `RoomManager.cleanup_inactive_rooms`: a
room older than the maximum age (in seconds) with no active users. -/
def roomInactive (now max_age_seconds : Int) (room : Room) : Bool :=
  max_age_seconds < now - room.created_at &&
    (room.get_active_users now).length = 0

/-- Embedding of `RoomManager.cleanup_inactive_rooms`: collect the ids
of rooms satisfying `roomInactive`, delete each, and return the count. -/
def RoomManager.cleanup_inactive_rooms (m : RoomManager)
    (max_age_hours : Int) (now : Int) : Nat × RoomManager :=
  let max_age_seconds := max_age_hours * 3600
  let inactive_rooms :=
    (m.rooms.filter (fun p => roomInactive now max_age_seconds p.2)).map
      Prod.fst
  (inactive_rooms.length,
   ⟨inactive_rooms.foldl (fun rs rid => aerase rs rid) m.rooms⟩)

/-- Outbound message of `websocket_manager.py`, reduced to an abstract
payload plus the `timestamp` key that `broadcast_to_room` assigns. -/
structure Message where
  payload : String
  timestamp : Option Int
deriving Repr, DecidableEq

/-- Embedding of `websocket_manager.py` `ConnectionManager`: connections
are abstract numeric handles; `active_connections` maps a room id to its
set of connections, and the two inverse dicts map a connection to its
user and room. -/
structure ConnectionManager where
  active_connections : List (String × List Nat)
  connection_users : List (Nat × String)
  connection_rooms : List (Nat × String)
deriving Repr, DecidableEq

/-- Embedding of `ConnectionManager.connect`: register the connection in
the room's set (a set, so re-adding is a no-op) and in both inverse
dicts. -/
def ConnectionManager.connect (m : ConnectionManager) (ws : Nat)
    (room_id user_id : String) : ConnectionManager :=
  let conns := (alookup m.active_connections room_id).getD []
  { active_connections :=
      aset m.active_connections room_id
        (if ws ∈ conns then conns else conns ++ [ws])
    connection_users := aset m.connection_users ws user_id
    connection_rooms := aset m.connection_rooms ws room_id }

/-- The room-set half of `ConnectionManager.disconnect`: when the
popped room id is truthy and registered, discard the connection from
that room's set, deleting the room's entry when the set empties. -/
def removeFromRoom (ac : List (String × List Nat)) (room_id : Option String)
    (ws : Nat) : List (String × List Nat) :=
  match room_id with
  | some rid =>
      if rid ≠ "" then
        match alookup ac rid with
        | some conns =>
            let remaining := conns.filter (fun c => c ≠ ws)
            if remaining.isEmpty then aerase ac rid
            else aset ac rid remaining
        | none => ac
      else ac
  | none => ac

/-- Embedding of `ConnectionManager.disconnect`: pop the connection from
both inverse dicts, discard it from its room's set (deleting the room
entry when the set empties), and return the `(room_id, user_id)` pair
when both were present.  Python's `if room_id and ...` tests truthiness,
so an empty-string id behaves like an absent one; the embedding keeps
that check. -/
def ConnectionManager.disconnect (m : ConnectionManager) (ws : Nat) :
    Option (String × String) × ConnectionManager :=
  let room_id := alookup m.connection_rooms ws
  let user_id := alookup m.connection_users ws
  let active_connections' := removeFromRoom m.active_connections room_id ws
  let result :=
    match room_id, user_id with
    | some rid, some uid =>
        if rid ≠ "" ∧ uid ≠ "" then some (rid, uid) else none
    | _, _ => none
  (result,
   { active_connections := active_connections'
     connection_users := aerase m.connection_users ws
     connection_rooms := aerase m.connection_rooms ws })

/-- Embedding of `ConnectionManager.broadcast_to_room`: when the room is
registered, tag the message with the server clock and attempt delivery
to every registered connection other than `exclude`; the value is the
list of `(connection, message)` deliveries attempted.  An unregistered
room produces no deliveries. -/
def ConnectionManager.broadcast_to_room (m : ConnectionManager)
    (message : Message) (room_id : String) (exclude : Option Nat)
    (now : Int) : List (Nat × Message) :=
  match alookup m.active_connections room_id with
  | none => []
  | some conns =>
      let tagged := { message with timestamp := some now }
      (conns.filter (fun c => exclude ≠ some c)).map (fun c => (c, tagged))

/-- Embedding of `ConnectionManager.get_room_connection_count`. -/
def ConnectionManager.get_room_connection_count (m : ConnectionManager)
    (room_id : String) : Nat :=
  ((alookup m.active_connections room_id).getD []).length

/-- Inbound operation dictionary for `Operation.from_dict`: each JSON
key is either absent (`none`) or present with its value. -/
structure OpDict where
  type? : Option String
  position? : Option Int
  content? : Option Str
  clientId? : Option String
  timestamp? : Option Int
  version? : Option Nat
deriving Repr, DecidableEq

/-- The dictionary with every key absent (an empty inbound message). -/
def emptyOpDict : OpDict := ⟨none, none, none, none, none, none⟩

/-- Embedding of `Operation.from_dict`: each field is read with
`data.get(key, default)`; `timestamp` defaults to the current clock. -/
def Operation.from_dict (d : OpDict) (now : Int) : Operation :=
  { op_type := d.type?.getD "insert"
    position := d.position?.getD 0
    content := d.content?.getD []
    client_id := d.clientId?.getD ""
    timestamp := d.timestamp?.getD now
    version := d.version?.getD 0 }

/-- Embedding of the `operation` branch of `main.py`
`handle_websocket_message`: parse the inbound dictionary and overwrite
its client id with the server-side user id before applying it. -/
def parseInboundOperation (d : OpDict) (user_id : String) (now : Int) :
    Operation :=
  { Operation.from_dict d now with client_id := user_id }

/-! ### Association-list lemmas -/

theorem alookup_aerase_self {α β : Type} [DecidableEq α]
    (l : List (α × β)) (k : α) : alookup (aerase l k) k = none := by
  induction l with
  | nil => rfl
  | cons p rest ih =>
      obtain ⟨k', v⟩ := p
      by_cases h : k' = k
      · simp [aerase, h, ih]
      · simp [aerase, alookup, h, ih]

theorem alookup_aerase_ne {α β : Type} [DecidableEq α]
    (l : List (α × β)) (k key : α) (h : k ≠ key) :
    alookup (aerase l k) key = alookup l key := by
  induction l with
  | nil => rfl
  | cons p rest ih =>
      obtain ⟨k', v⟩ := p
      by_cases hk : k' = k
      · subst hk
        simp [aerase, alookup, h, ih]
      · by_cases hkey : k' = key
        · subst hkey
          simp [aerase, alookup, hk]
        · simp [aerase, alookup, hk, hkey, ih]

theorem aerase_of_alookup_none {α β : Type} [DecidableEq α]
    (l : List (α × β)) (k : α) (h : alookup l k = none) : aerase l k = l := by
  induction l with
  | nil => rfl
  | cons p rest ih =>
      obtain ⟨k', v⟩ := p
      by_cases hk : k' = k
      · simp [alookup, hk] at h
      · simp [alookup, hk] at h
        simp [aerase, hk, ih h]

theorem alookup_aset_self {α β : Type} [DecidableEq α]
    (l : List (α × β)) (k : α) (v : β) : alookup (aset l k v) k = some v := by
  simp [aset, alookup]

theorem alookup_aset_ne {α β : Type} [DecidableEq α]
    (l : List (α × β)) (k key : α) (v : β) (h : k ≠ key) :
    alookup (aset l k v) key = alookup l key := by
  simp [aset, alookup, h, alookup_aerase_ne l k key h]

theorem alookup_of_mem_of_nodup {α β : Type} [DecidableEq α]
    (l : List (α × β)) (k : α) (v : β) (hmem : (k, v) ∈ l)
    (hnodup : (l.map Prod.fst).Nodup) : alookup l k = some v := by
  induction l with
  | nil => cases hmem
  | cons p rest ih =>
      obtain ⟨k', v'⟩ := p
      simp only [List.map_cons, List.nodup_cons] at hnodup
      rcases List.mem_cons.mp hmem with h | h
      · cases h
        simp [alookup]
      · have hne : k' ≠ k := by
          intro hEq
          exact hnodup.1 (hEq ▸ (List.mem_map.mpr ⟨(k, v), h, rfl⟩))
        simp [alookup, hne, ih h hnodup.2]

/-! ### C1: the transform step matches the specified fold -/

/-- One step of the transform as the specification words it: an Insert
at or before the adjusted position adds its payload length, a Delete
strictly below subtracts `min(payload length, adjusted − position)`,
anything else leaves the position alone. -/
def specAdjust (adjusted : Int) (concurrent : Operation) : Int :=
  if concurrent.op_type = "insert" ∧ concurrent.position ≤ adjusted then
    adjusted + concurrent.content.length
  else if concurrent.op_type = "delete" ∧ concurrent.position < adjusted then
    adjusted - min (concurrent.content.length : Int)
      (adjusted - concurrent.position)
  else adjusted

/-- The transform as the specification describes it, transcribed from
its wording for comparison with `CRDT.transform_operation`: last-known
version with default 0, the log entries newer than it in log order,
the `specAdjust` fold, a final clamp to `≥ 0`, and a fresh value keeping
kind, payload, origin client and timestamp. -/
def specTransform (c : CRDT) (op : Operation) : Operation :=
  let lastKnown := (alookup c.client_versions op.client_id).getD 0
  let unseen := c.operations.filter (fun entry => lastKnown < entry.version)
  let adjusted := unseen.foldl specAdjust op.position
  { op_type := op.op_type
    position := max 0 adjusted
    content := op.content
    client_id := op.client_id
    timestamp := op.timestamp
    version := 0 }

theorem transformPos_eq_foldl_specAdjust (ops : List Operation) (pos : Int) :
    transformPos pos ops = ops.foldl specAdjust pos := by
  induction ops generalizing pos with
  | nil => rfl
  | cons cop rest ih =>
      have hstep :
          (if cop.op_type = "insert" then
            if cop.position ≤ pos then pos + (cop.content.length : Int) else pos
          else if cop.op_type = "delete" then
            if cop.position < pos then
              pos - min (cop.content.length : Int) (pos - cop.position)
            else pos
          else pos) = specAdjust pos cop := by
        by_cases hins : cop.op_type = "insert" <;>
          by_cases hdel : cop.op_type = "delete" <;>
          by_cases hle : cop.position ≤ pos <;>
          by_cases hlt : cop.position < pos <;>
          simp_all [specAdjust]
      simpa [transformPos, hstep] using ih (specAdjust pos cop)

/-- C1: for every state and submitted operation, the source transform
equals the specified one — last-known version defaulting to 0, exactly
the log entries with greater version folded in log order with the
insert-shift / delete-shrink rules, a final clamp to `≥ 0` — and the
result is a new value with the submitted kind, payload, origin client
and timestamp. -/
theorem C1_transform_refines_spec (c : CRDT) (op : Operation) :
    c.transform_operation op = specTransform c op ∧
    (c.transform_operation op).op_type = op.op_type ∧
    (c.transform_operation op).content = op.content ∧
    (c.transform_operation op).client_id = op.client_id ∧
    (c.transform_operation op).timestamp = op.timestamp := by
  refine ⟨?_, rfl, rfl, rfl, rfl⟩
  unfold CRDT.transform_operation specTransform cvGet
  simp [transformPos_eq_foldl_specAdjust]

/-! ### C2: malformed operations are not rejected -/

/-- A malformed operation: its kind `"foo"` is neither `'insert'` nor
`'delete'`. -/
def badKindOp : Operation := ⟨"foo", 0, sChars "x", "c", 0, 0⟩

/-- C2 counterexample: applying the unknown-kind operation to a fresh
document reports success and changes the replica state (the version
becomes 1 and the operation is logged), so the operation is neither
rejected nor applied without mutation as the claim states. -/
theorem C2_counterexample_malformed_applied :
    ((CRDT.init "doc").apply_operation badKindOp).1 = true ∧
    ((CRDT.init "doc").apply_operation badKindOp).2.version = 1 ∧
    ((CRDT.init "doc").apply_operation badKindOp).2.operations.length = 1 ∧
    ((CRDT.init "doc").apply_operation badKindOp).2 ≠ CRDT.init "doc" := by
  refine ⟨rfl, rfl, rfl, ?_⟩
  intro h
  exact absurd (congrArg CRDT.version h) (by decide)

/-- C2 as amended: `applyOperation` is total and always reports
success; a malformed operation is not rejected — an unknown kind leaves
the text unchanged but still increments the version, appends the
stamped transformed operation to the log and records the submitter's
version, and a negative submitted position is clamped to `≥ 0` by the
transform before the operation is applied. -/
theorem C2_amended_malformed_not_rejected (c : CRDT) (op : Operation) :
    (c.apply_operation op).1 = true ∧
    0 ≤ (c.transform_operation op).position ∧
    (op.op_type ≠ "insert" → op.op_type ≠ "delete" →
      (c.apply_operation op).2.content = c.content ∧
      (c.apply_operation op).2.version = c.version + 1 ∧
      (c.apply_operation op).2.operations =
        c.operations ++
          [{ c.transform_operation op with version := c.version + 1 }] ∧
      cvGet (c.apply_operation op).2.client_versions op.client_id =
        c.version + 1) := by
  refine ⟨rfl, le_max_left 0 _, fun hins hdel => ⟨?_, rfl, rfl, ?_⟩⟩
  · show applyText c.content (c.transform_operation op) = c.content
    have hty : (c.transform_operation op).op_type = op.op_type := rfl
    simp [applyText, hty, hins, hdel]
  · show cvGet (aset c.client_versions op.client_id (c.version + 1))
        op.client_id = c.version + 1
    simp [cvGet, alookup_aset_self]

/-- C2 witness: the amended theorem evaluated on the concrete
unknown-kind operation against a fresh document. -/
theorem C2_amended_witness :
    ((CRDT.init "w").apply_operation badKindOp).2.content =
        (CRDT.init "w").content ∧
    ((CRDT.init "w").apply_operation badKindOp).2.version =
        (CRDT.init "w").version + 1 := by
  have h :=
    (C2_amended_malformed_not_rejected (CRDT.init "w") badKindOp).2.2
      (by decide) (by decide)
  exact ⟨h.1, h.2.1⟩

/-! ### C3: the version/log invariant and `set_content` -/

/-- Replay of the operation log from the empty document: fold the text
effect of each logged operation, in log order. -/
def replayLog (ops : List Operation) : Str :=
  ops.foldl applyText []

/-- Sequential application of a list of submitted operations through
`CRDT.apply_operation`. -/
def applyOps (c : CRDT) (ops : List Operation) : CRDT :=
  ops.foldl (fun s op => (s.apply_operation op).2) c

/-- C3 counterexample: one `set_content` call on the initial state is a
reachable state in the claim's sense, yet its version is 1 while its log
is empty and its text `"x"` is not the replay of the empty log. -/
theorem C3_counterexample_set_content_breaks_invariant :
    ((CRDT.init "doc").set_content (sChars "x")).version ≠
        ((CRDT.init "doc").set_content (sChars "x")).operations.length ∧
    ((CRDT.init "doc").set_content (sChars "x")).content ≠
        replayLog ((CRDT.init "doc").set_content (sChars "x")).operations := by
  constructor
  · decide
  · intro h
    exact absurd (congrArg List.length h) (by decide)

theorem applyText_version_irrel (s : Str) (t : Operation) (v : Nat) :
    applyText s { t with version := v } = applyText s t := rfl

theorem replayLog_append (ops : List Operation) (t : Operation) :
    replayLog (ops ++ [t]) = applyText (replayLog ops) t := by
  simp [replayLog, List.foldl_append]

theorem applyOps_invariant (ops : List Operation) (c : CRDT)
    (h1 : c.version = c.operations.length)
    (h2 : c.content = replayLog c.operations) :
    (applyOps c ops).version = (applyOps c ops).operations.length ∧
    (applyOps c ops).content = replayLog (applyOps c ops).operations := by
  induction ops generalizing c with
  | nil => exact ⟨h1, h2⟩
  | cons op rest ih =>
      refine ih ((c.apply_operation op).2) ?_ ?_
      · simp [CRDT.apply_operation, h1]
      · simp [CRDT.apply_operation, replayLog_append, h2,
          applyText_version_irrel]

/-- C3 as amended: the invariant holds for every state reachable from
the initial state by `applyOperation` alone — the version equals the log
length and the text is the replay of the log from empty; `set_content`
breaks it, as it bumps the version without logging anything (see the
counterexample). -/
theorem C3_amended_log_invariant (d : String) (ops : List Operation) :
    (applyOps (CRDT.init d) ops).version =
        (applyOps (CRDT.init d) ops).operations.length ∧
    (applyOps (CRDT.init d) ops).content =
        replayLog (applyOps (CRDT.init d) ops).operations :=
  applyOps_invariant ops (CRDT.init d) rfl rfl

/-! ### C4: clamped splicing of transformed operations -/

theorem clampedStart_le (text : Str) (p : Int) :
    (min p (text.length : Int)).toNat ≤ text.length :=
  Int.toNat_le.mpr (min_le_right _ _)

theorem applyText_insert_eq (text : Str) (t : Operation)
    (hins : t.op_type = "insert") :
    applyText text t =
      text.take (min t.position (text.length : Int)).toNat ++ t.content ++
        text.drop (min t.position (text.length : Int)).toNat := by
  simp [applyText, hins]

theorem applyText_insert_length (text : Str) (t : Operation)
    (hins : t.op_type = "insert") :
    (applyText text t).length = text.length + t.content.length := by
  have hs := clampedStart_le text t.position
  simp [applyText, hins]
  omega

theorem applyText_delete_eq (text : Str) (t : Operation)
    (hdel : t.op_type = "delete") :
    applyText text t =
      text.take (min t.position (text.length : Int)).toNat ++
        text.drop ((min t.position (text.length : Int)).toNat +
          min t.content.length
            (text.length - (min t.position (text.length : Int)).toNat)) := by
  have hs := clampedStart_le text t.position
  have harg :
      min ((min t.position (text.length : Int)).toNat + t.content.length)
          text.length =
        (min t.position (text.length : Int)).toNat +
          min t.content.length
            (text.length - (min t.position (text.length : Int)).toNat) := by
    omega
  simp [applyText, hdel]
  rw [harg]

theorem applyText_delete_length (text : Str) (t : Operation)
    (hdel : t.op_type = "delete") :
    (applyText text t).length =
      text.length -
        min t.content.length
          (text.length - (min t.position (text.length : Int)).toNat) := by
  have hs := clampedStart_le text t.position
  simp [applyText, hdel]
  omega

/-- C4: applying a transformed operation to the text clamps an Insert's
position into `[0, length(text)]` and splices the whole payload there,
and clamps a Delete's start likewise and removes exactly
`min(length(payload), length(text) − start)` characters from the start —
the payload's length alone determines the span.  The claim's examples:
`insert(" there", 100)` on `"Hi"` yields `"Hi there"`, and a delete at
position 3 with a 7-character payload on `"Hello"` yields `"Hel"`. -/
theorem C4_apply_clamps_and_splices (text : Str) (t : Operation)
    (hpos : 0 ≤ t.position) :
    (t.op_type = "insert" →
      (min t.position (text.length : Int)).toNat ≤ text.length ∧
      applyText text t =
        text.take (min t.position (text.length : Int)).toNat ++ t.content ++
          text.drop (min t.position (text.length : Int)).toNat ∧
      (applyText text t).length = text.length + t.content.length) ∧
    (t.op_type = "delete" →
      (min t.position (text.length : Int)).toNat ≤ text.length ∧
      applyText text t =
        text.take (min t.position (text.length : Int)).toNat ++
          text.drop ((min t.position (text.length : Int)).toNat +
            min t.content.length
              (text.length - (min t.position (text.length : Int)).toNat)) ∧
      (applyText text t).length =
        text.length -
          min t.content.length
            (text.length - (min t.position (text.length : Int)).toNat)) ∧
    applyText (sChars "Hi") ⟨"insert", 100, sChars " there", "u", 0, 0⟩ =
      sChars "Hi there" ∧
    applyText (sChars "Hello") ⟨"delete", 3, sChars "abcdefg", "u", 0, 0⟩ =
      sChars "Hel" := by
  refine ⟨fun hins => ⟨clampedStart_le text t.position,
      applyText_insert_eq text t hins, applyText_insert_length text t hins⟩,
    fun hdel => ⟨clampedStart_le text t.position,
      applyText_delete_eq text t hdel, applyText_delete_length text t hdel⟩,
    by decide, by decide⟩

/-- C4 witness: the clamping theorem evaluated on a concrete transformed
insert against the document `"Hello"`. -/
theorem C4_witness_concrete_insert :
    (applyText (sChars "Hello") ⟨"insert", 2, sChars "XY", "u", 0, 0⟩).length =
      (sChars "Hello").length + (sChars "XY").length :=
  ((C4_apply_clamps_and_splices (sChars "Hello")
    ⟨"insert", 2, sChars "XY", "u", 0, 0⟩ (by decide)).1 rfl).2.2

/-! ### C5: the worked transform scenario -/

/-- The scenario state: client1 inserts `"Hello"` at 0 and then
`" World"` at 5 into a fresh document, giving `"Hello World"` at
version 2. -/
def scenarioState : CRDT :=
  (((CRDT.init "doc").apply_operation
      ⟨"insert", 0, sChars "Hello", "client1", 0, 0⟩).2.apply_operation
    ⟨"insert", 5, sChars " World", "client1", 0, 0⟩).2

/-- The operation client2 submits while still at version 0. -/
def scenarioOp : Operation := ⟨"insert", 5, sChars "!", "client2", 0, 0⟩

/-- C5 counterexample: in the claim's scenario the transform of
client2's operation does not yield position 11 — client2's last-known
version is 0, so the `"Hello"` insert is concurrent too and the
transform yields 5 + 5 + 6 = 16. -/
theorem C5_counterexample_transform_position :
    (scenarioState.transform_operation scenarioOp).position ≠ 11 := by
  decide

/-- C5 as amended: the scenario document is `"Hello World"` at
version 2; the transform of client2's `insert("!", 5)` yields
position 16 (both of client1's inserts are concurrent, adding 5 and 6),
the apply step clamps it to the text length 11, and the final text is
`"Hello World!"` at version 3. -/
theorem C5_amended_scenario :
    scenarioState.content = sChars "Hello World" ∧
    scenarioState.version = 2 ∧
    (scenarioState.transform_operation scenarioOp).position = 16 ∧
    (scenarioState.apply_operation scenarioOp).2.content =
      sChars "Hello World!" ∧
    (scenarioState.apply_operation scenarioOp).2.version = 3 := by
  refine ⟨by decide, rfl, by decide, by decide, rfl⟩

/-! ### C6: room deletion ignores active users -/

theorem alookup_foldl_aerase {α β : Type} [DecidableEq α]
    (keys : List α) (l : List (α × β)) (k : α) (h : k ∉ keys) :
    alookup (keys.foldl (fun rs key => aerase rs key) l) k = alookup l k := by
  induction keys generalizing l with
  | nil => rfl
  | cons key rest ih =>
      simp only [List.mem_cons, not_or] at h
      show alookup (rest.foldl (fun rs key => aerase rs key) (aerase l key)) k =
        alookup l k
      rw [ih (aerase l key) h.2, alookup_aerase_ne l key k (Ne.symm h.1)]

/-- A room whose single user was active at instant 1000. -/
def liveRoom : Room := ⟨"r", 0, [("u", ⟨"u", 1000⟩)]⟩

/-- A registry holding only the live room. -/
def liveManager : RoomManager := ⟨[("r", liveRoom)]⟩

/-- C6 counterexample: at time 1000 the room's active-user set is
non-empty, yet `delete_room` succeeds and discards it. -/
theorem C6_counterexample_delete_ignores_active_users :
    (liveRoom.get_active_users 1000).length ≠ 0 ∧
    (liveManager.delete_room "r").1 = true ∧
    alookup (liveManager.delete_room "r").2.rooms "r" = none := by
  refine ⟨by decide, by decide, by decide⟩

/-- C6 as amended: `delete_room` removes the room whenever it exists,
regardless of its active users — a room-deletion request is never
rejected or deferred on that ground; only `cleanup_inactive_rooms`
checks activity, and it does preserve every room whose active-user set
is non-empty. -/
theorem C6_amended_delete_unconditional (m : RoomManager) (rid : String)
    (room : Room) (now : Int)
    (hroom : alookup m.rooms rid = some room)
    (hnodup : (m.rooms.map Prod.fst).Nodup)
    (hactive : (room.get_active_users now).length ≠ 0) :
    (m.delete_room rid).1 = true ∧
    alookup (m.delete_room rid).2.rooms rid = none ∧
    ∀ mah : Int,
      alookup (m.cleanup_inactive_rooms mah now).2.rooms rid = some room := by
  refine ⟨?_, ?_, ?_⟩
  · simp [RoomManager.delete_room, hroom]
  · simp [RoomManager.delete_room, hroom, alookup_aerase_self]
  · intro mah
    show alookup
        (((m.rooms.filter
            (fun p => roomInactive now (mah * 3600) p.2)).map Prod.fst).foldl
          (fun rs key => aerase rs key) m.rooms) rid = some room
    rw [alookup_foldl_aerase _ _ _ ?_, hroom]
    intro hmem
    obtain ⟨⟨k, r⟩, hmemf, hfst⟩ := List.mem_map.mp hmem
    obtain ⟨hmem', hpred⟩ := List.mem_filter.mp hmemf
    simp only at hfst
    subst hfst
    have hlook := alookup_of_mem_of_nodup m.rooms k r hmem' hnodup
    rw [hroom] at hlook
    injection hlook with hr
    subst hr
    simp only [roomInactive, Bool.and_eq_true, decide_eq_true_eq] at hpred
    exact hactive hpred.2

/-- C6 witness: the amended theorem evaluated on the concrete registry
holding the live room at time 1000. -/
theorem C6_witness_live_room :
    (liveManager.delete_room "r").1 = true ∧
    alookup (liveManager.cleanup_inactive_rooms 24 1000).2.rooms "r" =
      some liveRoom := by
  have h := C6_amended_delete_unconditional liveManager "r" liveRoom 1000
    (by decide) (by decide) (by decide)
  exact ⟨h.1, h.2.2 24⟩

/-! ### C7: length accounting across a submission sequence -/

/-- Total payload length of the insert operations in a submission
sequence (the transform preserves payloads, so this is the spec's "sum
of insert payload lengths"). -/
def insertedLength (ops : List Operation) : Nat :=
  (ops.map (fun op =>
    if op.op_type = "insert" then op.content.length else 0)).sum

/-- Number of characters a transformed operation removes from the given
text: zero unless it is a delete, whose span is clamped to the end of
the text. -/
def removedAt (content : Str) (t : Operation) : Nat :=
  if t.op_type = "delete" then
    min t.content.length
      (content.length - (min t.position (content.length : Int)).toNat)
  else 0

/-- Characters actually removed along the application of a submission
sequence, step by step. -/
def removedLength (c : CRDT) : List Operation → Nat
  | [] => 0
  | op :: rest =>
      removedAt c.content (c.transform_operation op) +
        removedLength (c.apply_operation op).2 rest

theorem apply_operation_content_length (c : CRDT) (op : Operation)
    (hvalid : op.op_type = "insert" ∨ op.op_type = "delete") :
    (c.apply_operation op).2.content.length +
        removedAt c.content (c.transform_operation op) =
      c.content.length +
        (if op.op_type = "insert" then op.content.length else 0) := by
  have hty : (c.transform_operation op).op_type = op.op_type := rfl
  have hcnt : (c.transform_operation op).content = op.content := rfl
  show (applyText c.content (c.transform_operation op)).length +
      removedAt c.content (c.transform_operation op) =
    c.content.length + (if op.op_type = "insert" then op.content.length else 0)
  rcases hvalid with hins | hdel
  · rw [applyText_insert_length c.content _ (hty.trans hins)]
    simp [removedAt, hty, hins, hcnt]
  · have hnotins : op.op_type ≠ "insert" := by simp [hdel]
    have hs := clampedStart_le c.content (c.transform_operation op).position
    rw [applyText_delete_length c.content _ (hty.trans hdel), hcnt,
      if_neg hnotins]
    have hrem : removedAt c.content (c.transform_operation op) =
        min op.content.length
          (c.content.length -
            (min (c.transform_operation op).position
              (c.content.length : Int)).toNat) := by
      simp [removedAt, hty, hdel, hcnt]
    rw [hrem]
    omega

theorem applyOps_length_accounting (ops : List Operation) (c : CRDT)
    (hvalid : ∀ op ∈ ops, op.op_type = "insert" ∨ op.op_type = "delete") :
    (applyOps c ops).content.length + removedLength c ops =
      c.content.length + insertedLength ops ∧
    (applyOps c ops).version = c.version + ops.length := by
  induction ops generalizing c with
  | nil => exact ⟨by simp [applyOps, removedLength, insertedLength], by
      simp [applyOps]⟩
  | cons op rest ih =>
      have hop := hvalid op (List.mem_cons_self op rest)
      have hrest := fun o ho => hvalid o (List.mem_cons_of_mem op ho)
      have hstep := apply_operation_content_length c op hop
      have hih := ih ((c.apply_operation op).2) hrest
      constructor
      · show (applyOps ((c.apply_operation op).2) rest).content.length +
            (removedAt c.content (c.transform_operation op) +
              removedLength ((c.apply_operation op).2) rest) =
          c.content.length + insertedLength (op :: rest)
        have hins : insertedLength (op :: rest) =
            (if op.op_type = "insert" then op.content.length else 0) +
              insertedLength rest := by
          simp [insertedLength]
        rw [hins]
        omega
      · show (applyOps ((c.apply_operation op).2) rest).version =
          c.version + (op :: rest).length
        rw [hih.2]
        show c.version + 1 + rest.length = c.version + (rest.length + 1)
        omega

/-- C7: for every sequence of valid insert/delete operations applied to
an initially empty document, the final text length equals the sum of
the insert payload lengths minus the clamped delete lengths actually
removed, and the final version equals the number of operations
applied. -/
theorem C7_length_accounting (d : String) (ops : List Operation)
    (hvalid : ∀ op ∈ ops, op.op_type = "insert" ∨ op.op_type = "delete") :
    ((applyOps (CRDT.init d) ops).content.length : Int) =
      (insertedLength ops : Int) - (removedLength (CRDT.init d) ops : Int) ∧
    (applyOps (CRDT.init d) ops).version = ops.length := by
  have h := applyOps_length_accounting ops (CRDT.init d) hvalid
  have hlen : (CRDT.init d).content.length = 0 := rfl
  have hver : (CRDT.init d).version = 0 := rfl
  have h1 := h.1
  have h2 := h.2
  rw [hlen] at h1
  rw [hver] at h2
  exact ⟨by omega, by omega⟩

/-- C7 witness: the accounting theorem evaluated on a concrete two-step
sequence (an insert of two characters, then a fully clamped delete). -/
theorem C7_witness_two_steps :
    ((applyOps (CRDT.init "w")
        [⟨"insert", 0, sChars "ab", "u", 0, 0⟩,
         ⟨"delete", 0, sChars "z", "v", 0, 0⟩]).content.length : Int) =
      (insertedLength
          [⟨"insert", 0, sChars "ab", "u", 0, 0⟩,
           ⟨"delete", 0, sChars "z", "v", 0, 0⟩] : Int) -
        (removedLength (CRDT.init "w")
          [⟨"insert", 0, sChars "ab", "u", 0, 0⟩,
           ⟨"delete", 0, sChars "z", "v", 0, 0⟩] : Int) :=
  (C7_length_accounting "w"
    [⟨"insert", 0, sChars "ab", "u", 0, 0⟩,
     ⟨"delete", 0, sChars "z", "v", 0, 0⟩]
    (by decide)).1

/-! ### C8: broadcast excludes the sender and tags the message -/

/-- C8: `broadcast_to_room` attempts delivery of the message, tagged
with the server-assigned timestamp, exactly to the connections
registered under the room other than the excluded one; the excluded
connection never receives it, a room with no registered connections
produces no deliveries, and when the excluded connection is the only
one registered nothing is sent. -/
theorem C8_broadcast_excludes_sender (m : ConnectionManager)
    (message : Message) (room_id : String) (exclude : Option Nat)
    (now : Int) :
    (∀ c tm, (c, tm) ∈ m.broadcast_to_room message room_id exclude now ↔
      (∃ conns, alookup m.active_connections room_id = some conns ∧
        c ∈ conns ∧ exclude ≠ some c ∧
        tm = { message with timestamp := some now })) ∧
    (∀ a, exclude = some a →
      ∀ tm, (a, tm) ∉ m.broadcast_to_room message room_id exclude now) ∧
    (alookup m.active_connections room_id = none →
      m.broadcast_to_room message room_id exclude now = []) ∧
    (∀ a, exclude = some a →
      alookup m.active_connections room_id = some [a] →
      m.broadcast_to_room message room_id exclude now = []) := by
  have hmem : ∀ c tm,
      (c, tm) ∈ m.broadcast_to_room message room_id exclude now ↔
      (∃ conns, alookup m.active_connections room_id = some conns ∧
        c ∈ conns ∧ exclude ≠ some c ∧
        tm = { message with timestamp := some now }) := by
    intro c tm
    unfold ConnectionManager.broadcast_to_room
    cases h : alookup m.active_connections room_id with
    | none => simp
    | some conns =>
        simp only [List.mem_map, List.mem_filter, decide_eq_true_eq,
          Option.some.injEq]
        constructor
        · rintro ⟨c', ⟨hc', hex⟩, hpair⟩
          cases hpair
          exact ⟨conns, rfl, hc', hex, rfl⟩
        · rintro ⟨conns', hconns', hc, hex, htm⟩
          cases hconns'
          exact ⟨c, ⟨hc, hex⟩, by rw [htm]⟩
  refine ⟨hmem, ?_, ?_, ?_⟩
  · intro a ha tm hin
    obtain ⟨_, _, _, hex, _⟩ := (hmem a tm).mp hin
    exact hex ha
  · intro h
    unfold ConnectionManager.broadcast_to_room
    rw [h]
  · intro a ha h
    unfold ConnectionManager.broadcast_to_room
    rw [h, ha]
    simp

/-- A hub with two connections, 1 and 2, registered in room `"r"`. -/
def twoConnHub : ConnectionManager :=
  ⟨[("r", [1, 2])], [(1, "alice"), (2, "bob")], [(1, "r"), (2, "r")]⟩

/-- C8 witness: in the two-connection hub, broadcasting to room `"r"`
excluding connection 1 never delivers to connection 1. -/
theorem C8_witness_two_connections :
    (1, { payload := "msg", timestamp := some 5 : Message }) ∉
      twoConnHub.broadcast_to_room { payload := "msg", timestamp := none }
        "r" (some 1) 5 :=
  (C8_broadcast_excludes_sender twoConnHub
      { payload := "msg", timestamp := none } "r" (some 1) 5).2.1 1 rfl
    { payload := "msg", timestamp := some 5 }

/-! ### C9: disconnect removes both registrations and is idempotent -/

theorem aerase_idem {α β : Type} [DecidableEq α] (l : List (α × β)) (k : α) :
    aerase (aerase l k) k = aerase l k :=
  aerase_of_alookup_none _ _ (alookup_aerase_self l k)

theorem removeFromRoom_not_mem (ac : List (String × List Nat))
    (ws : Nat) (rid : String) (hrne : rid ≠ "") (conns : List Nat)
    (hconns : alookup (removeFromRoom ac (some rid) ws) rid = some conns) :
    ws ∉ conns := by
  simp only [removeFromRoom, if_pos hrne] at hconns
  cases hcs : alookup ac rid with
  | none =>
      simp [hcs] at hconns
  | some cs =>
      simp only [hcs] at hconns
      by_cases hempty : (cs.filter (fun c => c ≠ ws)).isEmpty
      · rw [if_pos hempty, alookup_aerase_self] at hconns
        cases hconns
      · rw [if_neg hempty, alookup_aset_self] at hconns
        injection hconns with hconns
        subst hconns
        intro hmem
        simp at hmem

theorem disconnect_not_registered (m : ConnectionManager) (ws : Nat)
    (hr : alookup m.connection_rooms ws = none)
    (hu : alookup m.connection_users ws = none) :
    m.disconnect ws = (none, m) := by
  simp [ConnectionManager.disconnect, removeFromRoom, hr, hu,
    aerase_of_alookup_none _ _ hr, aerase_of_alookup_none _ _ hu]

/-- C9: disconnecting a registered connection removes it from the
connection-to-room and connection-to-user maps and from its room's
connection set, and returns the registered `(roomId, userId)` pair; a
second `disconnect` on the same connection returns none and leaves the
hub state unchanged. -/
theorem C9_disconnect_removes_and_idempotent (m : ConnectionManager)
    (ws : Nat) (rid uid : String)
    (hr : alookup m.connection_rooms ws = some rid)
    (hu : alookup m.connection_users ws = some uid)
    (hrne : rid ≠ "") (hune : uid ≠ "") :
    (m.disconnect ws).1 = some (rid, uid) ∧
    alookup (m.disconnect ws).2.connection_rooms ws = none ∧
    alookup (m.disconnect ws).2.connection_users ws = none ∧
    (∀ conns,
      alookup (m.disconnect ws).2.active_connections rid = some conns →
        ws ∉ conns) ∧
    (m.disconnect ws).2.disconnect ws = (none, (m.disconnect ws).2) := by
  refine ⟨?_, ?_, ?_, ?_, ?_⟩
  · simp [ConnectionManager.disconnect, hr, hu, hrne, hune]
  · show alookup (aerase m.connection_rooms ws) ws = none
    exact alookup_aerase_self _ _
  · show alookup (aerase m.connection_users ws) ws = none
    exact alookup_aerase_self _ _
  · intro conns hconns
    have hac : (m.disconnect ws).2.active_connections =
        removeFromRoom m.active_connections (some rid) ws := by
      show removeFromRoom m.active_connections (alookup m.connection_rooms ws)
          ws = _
      rw [hr]
    rw [hac] at hconns
    exact removeFromRoom_not_mem m.active_connections ws rid hrne conns hconns
  · refine disconnect_not_registered _ _ ?_ ?_
    · show alookup (aerase m.connection_rooms ws) ws = none
      exact alookup_aerase_self _ _
    · show alookup (aerase m.connection_users ws) ws = none
      exact alookup_aerase_self _ _

/-- C9 witness: the disconnect theorem evaluated on a hub holding one
freshly connected connection. -/
theorem C9_witness_single_connection :
    ((ConnectionManager.connect ⟨[], [], []⟩ 7 "room" "user").disconnect
        7).1 = some ("room", "user") :=
  (C9_disconnect_removes_and_idempotent
    (ConnectionManager.connect ⟨[], [], []⟩ 7 "room" "user") 7 "room" "user"
    (by decide) (by decide) (by decide) (by decide)).1

/-! ### C10: `from_dict` is total and substitutes defaults -/

/-- C10: `Operation.from_dict` succeeds on every input dictionary —
absent keys are replaced by the defaults `'insert'`, position 0, empty
payload, empty client id and version 0 (the timestamp falls back to the
current clock) — so an inbound operation message with no fields parses
as an insert of the empty string at position 0 with the caller's user
id substituted, instead of being rejected at parse time. -/
theorem C10_from_dict_total_defaults (d : OpDict) (now : Int)
    (uid : String) :
    Operation.from_dict emptyOpDict now =
      { op_type := "insert", position := 0, content := [], client_id := ""
        timestamp := now, version := 0 } ∧
    (d.type? = none → (Operation.from_dict d now).op_type = "insert") ∧
    (d.position? = none → (Operation.from_dict d now).position = 0) ∧
    (d.content? = none → (Operation.from_dict d now).content = []) ∧
    (d.clientId? = none → (Operation.from_dict d now).client_id = "") ∧
    (d.timestamp? = none → (Operation.from_dict d now).timestamp = now) ∧
    (d.version? = none → (Operation.from_dict d now).version = 0) ∧
    parseInboundOperation emptyOpDict uid now =
      { op_type := "insert", position := 0, content := [], client_id := uid
        timestamp := now, version := 0 } := by
  refine ⟨rfl, ?_, ?_, ?_, ?_, ?_, ?_, rfl⟩ <;>
    intro h <;> simp [Operation.from_dict, h]

/-- C10 witness: the defaults theorem evaluated on the empty dictionary
at clock 0 for user `"u"`. -/
theorem C10_witness_empty_message :
    (Operation.from_dict emptyOpDict 0).op_type = "insert" ∧
    (Operation.from_dict emptyOpDict 0).position = 0 :=
  ⟨(C10_from_dict_total_defaults emptyOpDict 0 "u").2.1 rfl,
   (C10_from_dict_total_defaults emptyOpDict 0 "u").2.2.1 rfl⟩
